import Mathlib

/-!
A shallow embedding of the visual-novel story engine: the dotted-path node
resolver, the step-execution state machine (`engine.js`), and the static
story validator (`validator.js`), together with theorems about the
interpreter's control flow, error handling and validation diagnostics.

Modelling conventions:
* JavaScript objects used as string-keyed maps become association lists
  (`List (String × _)`); insertion order is preserved, as in JS.
* JS truthiness on optional strings (absent / `null` / `""` are falsy) is
  `jsTruthy`.
* Author-supplied functions embedded in story data (`set_variable` compute
  functions, `conditional_jump` predicates, choice effect functions) may
  throw; they are modelled as `State → Except RTErr _`, and the engine
  propagates the error exactly where the source rethrows.
* DOM writes become display commands appended to `EngineState.output`;
  `console.error` / `console.warn` calls become strings appended to
  `EngineState.logs`. Pure animation / CSS details carry no semantics and
  are not modelled.
* The interpreter's recursion (a jump re-enters the step walk) is made total
  with a fuel parameter; every recursive call consumes one unit of fuel, and
  running out of fuel returns the state unchanged.
-/

namespace VN

/-- A variable value: the example stories store numbers, booleans and
strings. -/
inductive Value where
  | vInt (n : Int)
  | vBool (b : Bool)
  | vStr (s : String)
deriving DecidableEq, Repr

/-- `state.vars`: a string-keyed map, insertion-ordered like a JS
object. -/
abbrev Vars := List (String × Value)

/-- First-match association lookup (JS property access on an object
literal). -/
def lookupA {α : Type} : List (String × α) → String → Option α
  | [], _ => none
  | (k, v) :: rest, key => if k = key then some v else lookupA rest key

/-- JS property assignment `obj[key] = v`: update in place when the key
exists, append otherwise. -/
def setA : Vars → String → Value → Vars
  | [], key, v => [(key, v)]
  | (k, w) :: rest, key, v =>
    if k = key then (k, v) :: rest else (k, w) :: setA rest key v

/-- Key presence (`Object.keys(obj)` membership), regardless of the value's
truthiness. -/
def hasKey {α : Type} (l : List (String × α)) (key : String) : Bool :=
  (lookupA l key).isSome

/-- The object the engine passes to author functions: `this.state`. -/
structure State where
  vars : Vars

/-- A thrown JS exception, carried as its message. -/
abbrev RTErr := String

/-- JS truthiness of an optional string: absent, `null` and `""` are falsy;
a nonempty string is its own truthy witness. -/
def jsTruthy : Option String → Option String
  | none => none
  | some s => if s.isEmpty then none else some s

/-- The `value` field of a `set_variable` step: a literal, or a compute
function `(state) => any` (which may throw). -/
inductive StepValue where
  | const (v : Value)
  | compute (f : State → Except RTErr Value)

/-- One entry of a choice step's `options`: `[label, nodeId, effectFn]`,
with `nodeId` possibly null and `effectFn` optional. -/
structure ChoiceOption where
  label : String
  nodeId : Option String
  effectFn : Option (State → Except RTErr State)

/-- The ten step kinds of `story-format.js`. Fields that the source reads
through truthiness checks are `Option String` (or a possibly-empty
`String` where the source stores a plain string). -/
inductive Step where
  | background (id : String)
  | show_character (id : String) (pose : Option String) (position : Option String)
  | hide_character (id : String)
  | dialogue (who : String) (text : String)
  | narration (text : String)
  | set_variable (key : String) (value : StepValue)
  | jump_to (nodeId : String)
  | conditional_jump (test : State → Except RTErr Bool)
      (thenNodeId : Option String) (elseNodeId : Option String)
  | choice (prompt : Option String) (options : List ChoiceOption)
  | end_story

/-- The story's node namespace: leaves are step sequences, internal branches
are named groups (`Record<string, Step[] | Nodes>`). -/
inductive NodeTree where
  | leaf (steps : List Step)
  | group (children : List (String × NodeTree))

/-- `current[part]`: property lookup on the current tree value. On a leaf
(a JS array) a named property is absent. -/
def childLookup : NodeTree → String → Option NodeTree
  | .leaf _, _ => none
  | .group cs, key => lookupA cs key

/-- `nodeId.split('.')`, written by structural recursion on the characters
so that it evaluates inside the kernel. `""` splits to `[""]`, exactly as in
JS. -/
def splitOnDotChars : List Char → List Char → List String
  | [], acc => [String.mk acc.reverse]
  | c :: rest, acc =>
    if c = '.' then String.mk acc.reverse :: splitOnDotChars rest []
    else splitOnDotChars rest (c :: acc)

/-- `nodeId.split('.')`. -/
def splitOnDot (s : String) : List String :=
  splitOnDotChars s.data []

/-- `parts.join('.')`. -/
def joinDot : List String → String
  | [] => ""
  | [p] => p
  | p :: rest => p ++ "." ++ joinDot rest

/-- The outcome of the engine's `resolveNode`: the leaf's steps, a
not-found failure carrying the requested path and the dot-joined prefix at
which the walk failed (`parts.slice(0, i + 1).join('.')`), or a
path-names-a-group failure. -/
inductive ResolveResult where
  | found (steps : List Step)
  | notFound (path : String) (failedAt : String)
  | isGroup (path : String)

/-- The segment walk of `VisualNovelEngine.resolveNode`: `done` holds the
segments already consumed, so on a missing segment the reported prefix is
`done ++ [p]` dot-joined — the failing segment included. -/
def resolveGo (nodeId : String) : NodeTree → List String → List String → ResolveResult
  | current, [], _ =>
    match current with
    | .leaf steps => .found steps
    | .group _ => .isGroup nodeId
  | current, p :: rest, done =>
    match childLookup current p with
    | none => .notFound nodeId (joinDot (done ++ [p]))
    | some child => resolveGo nodeId child rest (done ++ [p])

/-- `VisualNovelEngine.resolveNode(nodeId)`: split the dotted path and walk
the node tree from the root. -/
def resolveNode (nodes : List (String × NodeTree)) (nodeId : String) : ResolveResult :=
  resolveGo nodeId (.group nodes) (splitOnDot nodeId) []

/-- Wanted behaviour of segment resolution, stated independently of
`resolveGo`: follow each segment with `childLookup`, `none` when any
segment is absent. Used to state what the resolver's failure results carry. -/
def walkPath : NodeTree → List String → Option NodeTree
  | t, [] => some t
  | t, p :: rest =>
    match childLookup t p with
    | none => none
    | some c => walkPath c rest

/-- A story character: display name and pose-name → image map. -/
structure Character where
  name : String
  poses : List (String × String)

/-- The story document: start node path, initial vars, the node tree,
characters and places. -/
structure Story where
  start : String
  vars : Vars
  nodes : List (String × NodeTree)
  characters : List (String × Character)
  places : List (String × String)

/-- A display command emitted to the render sink (the engine's DOM
writes, abstracted). -/
inductive DisplayCmd where
  | setBackground (url : String)
  | setSprite (position : String) (url : String)
  | clearSprite (position : String)
  | showDialogue (speaker : String) (text : String)
  | showNarration (text : String)
  | showChoiceMenu (prompt : String) (labels : List String)
  | showEnded
deriving DecidableEq, Repr

/-- The interpreter's mutable state: the story reference, the private copy
of the vars, the current node / step cursor / step sequence, the
`waitingForInput` suspension flag, the per-position character tracking, and
the observable output and log channels. -/
structure EngineState where
  story : Story
  vars : Vars
  currentNode : Option String
  currentStepIndex : Nat
  currentSteps : List Step
  waitingForInput : Bool
  visibleLeft : Option String
  visibleCenter : Option String
  visibleRight : Option String
  output : List DisplayCmd
  logs : List String

/-- Append one `console.error` / `console.warn` message. -/
def logErr (s : EngineState) (msg : String) : EngineState :=
  { s with logs := s.logs ++ [msg] }

def backgroundNotFoundMsg (placeId : String) : String :=
  s!"Background \"{placeId}\" not found in story.places"

def charNotFoundMsg (charId : String) : String :=
  s!"Character \"{charId}\" not found in story.characters"

def invalidPoseMsg (charId : String) : String :=
  s!"Invalid pose for character \"{charId}\""

def poseNotFoundMsg (poseName charId : String) : String :=
  s!"Pose \"{poseName}\" not found for character \"{charId}\""

def invalidPositionMsg (charId : String) : String :=
  s!"Invalid position for character \"{charId}\""

def unknownPositionMsg (positionName charId : String) : String :=
  s!"Unknown position \"{positionName}\" for character \"{charId}\""

def nodeNotFoundMsg (path failedAt : String) : String :=
  s!"Node not found: \"{path}\" (failed at \"{failedAt}\")"

def nodeIsGroupMsg (path : String) : String :=
  s!"Node \"{path}\" exists but is not a step array (it is a nested group)"

def cannotJumpMsg (nodeId : String) : String :=
  s!"Cannot jump to node: {nodeId}"

/-- `setBackground(placeId)`: place lookup (falsy image path counts as
missing), emit the backdrop command or log. -/
def setBackground (placeId : String) (s : EngineState) : EngineState :=
  match jsTruthy (lookupA s.story.places placeId) with
  | none => logErr s (backgroundNotFoundMsg placeId)
  | some placePath => { s with output := s.output ++ [.setBackground placePath] }

/-- `showCharacter(charId, pose, position)`: the chain of lookup checks from
the source; every failure logs and leaves the rest of the state unchanged.
The same-character fast path and the animated path both set the sprite
image — the difference is CSS animation only, so both emit one
`setSprite`. -/
def showCharacter (charId : String) (pose position : Option String)
    (s : EngineState) : EngineState :=
  match lookupA s.story.characters charId with
  | none => logErr s (charNotFoundMsg charId)
  | some ch =>
    match jsTruthy pose with
    | none => logErr s (invalidPoseMsg charId)
    | some poseName =>
      match jsTruthy (lookupA ch.poses poseName) with
      | none => logErr s (poseNotFoundMsg poseName charId)
      | some imagePath =>
        match jsTruthy position with
        | none => logErr s (invalidPositionMsg charId)
        | some positionName =>
          if positionName = "left" then
            { s with output := s.output ++ [.setSprite "left" imagePath],
                     visibleLeft := some charId }
          else if positionName = "center" then
            { s with output := s.output ++ [.setSprite "center" imagePath],
                     visibleCenter := some charId }
          else if positionName = "right" then
            { s with output := s.output ++ [.setSprite "right" imagePath],
                     visibleRight := some charId }
          else logErr s (unknownPositionMsg positionName charId)

/-- `hideCharacter(charId)`: clear the character from every position that
currently shows it, in the tracking object's insertion order (left, center,
right). -/
def hideCharacter (charId : String) (s : EngineState) : EngineState :=
  let s1 :=
    if s.visibleLeft = some charId then
      { s with visibleLeft := none, output := s.output ++ [.clearSprite "left"] }
    else s
  let s2 :=
    if s1.visibleCenter = some charId then
      { s1 with visibleCenter := none, output := s1.output ++ [.clearSprite "center"] }
    else s1
  if s2.visibleRight = some charId then
    { s2 with visibleRight := none, output := s2.output ++ [.clearSprite "right"] }
  else s2

/-- `showDialogue(who, text)`: on a missing speaker or text the source logs
and returns early — note it then does NOT set `waitingForInput`. With a
speaker not in `story.characters` it warns and uses the id as the display
name. -/
def showDialogue (who text : String) (s : EngineState) : EngineState :=
  if who.isEmpty then logErr s "Dialogue step missing \"who\" property"
  else if text.isEmpty then logErr s (s!"Dialogue for \"{who}\" missing text")
  else
    match lookupA s.story.characters who with
    | some ch =>
      { s with output := s.output ++ [.showDialogue ch.name text], waitingForInput := true }
    | none =>
      { s with
          logs := s.logs ++ [s!"Character \"{who}\" not found in story.characters, using ID as name"],
          output := s.output ++ [.showDialogue who text],
          waitingForInput := true }

/-- `showNarration(text)`: log-and-return on missing text (again without
suspending), else emit and suspend. -/
def showNarration (text : String) (s : EngineState) : EngineState :=
  if text.isEmpty then logErr s "Narration step missing text"
  else { s with output := s.output ++ [.showNarration text], waitingForInput := true }

/-- `setVariable(key, value)`: missing key logs and no-ops; a compute
function is invoked with the current state and its exception is logged and
rethrown — modelled as the error propagating. -/
def setVariable (key : String) (value : StepValue) (s : EngineState) :
    Except RTErr EngineState :=
  if key.isEmpty then .ok (logErr s "set_variable step missing key")
  else
    match value with
    | .const v => .ok { s with vars := setA s.vars key v }
    | .compute f =>
      match f ⟨s.vars⟩ with
      | .ok v => .ok { s with vars := setA s.vars key v }
      | .error e => .error e

/-- An option gets a button exactly when its label is truthy. -/
def labelTruthy (o : ChoiceOption) : Bool :=
  !o.label.isEmpty

/-- `showChoices(prompt, options)`: with no options, log and return (the
menu never opens); otherwise log each label-less option, show the menu with
the labelled options and a defaulted prompt, and set `waitingForInput`. -/
def showChoices (prompt : Option String) (options : List ChoiceOption)
    (s : EngineState) : EngineState :=
  if options.isEmpty then logErr s "Choice step has no valid options array"
  else
    let labelErrs := options.filterMap
      (fun o => if labelTruthy o then none else some "Choice option missing label")
    let labels := (options.filter labelTruthy).map (fun o => o.label)
    let promptText :=
      match jsTruthy prompt with
      | some p => p
      | none => "Choose:"
    { s with logs := s.logs ++ labelErrs,
             output := s.output ++ [.showChoiceMenu promptText labels],
             waitingForInput := true }

/-- `endStory()`: emit the terminal display command. Note the source does
NOT touch `waitingForInput` here. -/
def endStory (s : EngineState) : EngineState :=
  { s with output := s.output ++ [.showEnded] }

mutual

/-- `executeSteps()`: run the step at the cursor and advance while no step
asks to pause; any exception from a step propagates. -/
def executeSteps : Nat → EngineState → Except RTErr EngineState
  | 0, s => .ok s
  | fuel + 1, s =>
    match s.currentSteps[s.currentStepIndex]? with
    | none => .ok s
    | some step =>
      match executeStep fuel step s with
      | .error e => .error e
      | .ok (s', shouldPause) =>
        if shouldPause then .ok s'
        else executeSteps fuel { s' with currentStepIndex := s'.currentStepIndex + 1 }

/-- `executeStep(step)`: one step's effect and its "suspend the walk?"
result. The source's surrounding try/catch logs and rethrows, so an
exception from a compute or test function propagates unchanged. At zero
fuel the step is not executed (fuel artifact, reachable only through
deeply nested jumps). -/
def executeStep : Nat → Step → EngineState → Except RTErr (EngineState × Bool)
  | 0, _, s => .ok (s, false)
  | fuel + 1, step, s =>
    match step with
    | .background id => .ok (setBackground id s, false)
    | .show_character id pose position => .ok (showCharacter id pose position s, false)
    | .hide_character id => .ok (hideCharacter id s, false)
    | .dialogue who text => .ok (showDialogue who text s, true)
    | .narration text => .ok (showNarration text s, true)
    | .set_variable key value =>
      match setVariable key value s with
      | .ok s' => .ok (s', false)
      | .error e => .error e
    | .jump_to nodeId =>
      match jumpToNode fuel nodeId s with
      | .ok s' => .ok (s', true)
      | .error e => .error e
    | .conditional_jump test thenN elseN =>
      match test ⟨s.vars⟩ with
      | .error e => .error e
      | .ok testResult =>
        match (if testResult then jsTruthy thenN else none) with
        | some target =>
          match jumpToNode fuel target s with
          | .ok s' => .ok (s', true)
          | .error e => .error e
        | none =>
          match (if !testResult then jsTruthy elseN else none) with
          | some target =>
            match jumpToNode fuel target s with
            | .ok s' => .ok (s', true)
            | .error e => .error e
          | none => .ok (s, false)
    | .choice prompt options => .ok (showChoices prompt options s, true)
    | .end_story => .ok (endStory s, true)

/-- `jumpToNode(nodeId)`: resolve the target; on success replace the
current node and steps, reset the cursor to 0 and restart the walk; on
failure log (the resolver's message and "Cannot jump") and return with the
node, cursor and steps untouched. -/
def jumpToNode : Nat → String → EngineState → Except RTErr EngineState
  | 0, _, s => .ok s
  | fuel + 1, nodeId, s =>
    match resolveNode s.story.nodes nodeId with
    | .found steps =>
      executeSteps fuel
        { s with currentNode := some nodeId, currentSteps := steps, currentStepIndex := 0 }
    | .notFound path failedAt =>
      .ok (logErr (logErr s (nodeNotFoundMsg path failedAt)) (cannotJumpMsg nodeId))
    | .isGroup path =>
      .ok (logErr (logErr s (nodeIsGroupMsg path)) (cannotJumpMsg nodeId))

end

/-- `advance()`: gated solely on `waitingForInput`; when set, clear it,
increment the cursor and resume the walk; otherwise do nothing at all. -/
def advance (fuel : Nat) (s : EngineState) : Except RTErr EngineState :=
  if s.waitingForInput then
    executeSteps fuel
      { s with waitingForInput := false, currentStepIndex := s.currentStepIndex + 1 }
  else .ok s

/-- The click handler of the `i`-th choice button. A button exists exactly
when the pending step at the cursor is a choice and `i` indexes its
labelled options; clicking runs the effect (exceptions propagate), then
jumps to a truthy target or else continues in the current node at the next
cursor. The handler never clears `waitingForInput`. -/
def choose (fuel : Nat) (i : Nat) (s : EngineState) : Except RTErr EngineState :=
  match s.currentSteps[s.currentStepIndex]? with
  | some (.choice _ options) =>
    match (options.filter labelTruthy)[i]? with
    | some opt =>
      match (match opt.effectFn with
             | some f => f ⟨s.vars⟩
             | none => .ok ⟨s.vars⟩) with
      | .error e => .error e
      | .ok st =>
        let s1 := { s with vars := st.vars }
        match jsTruthy opt.nodeId with
        | some target => jumpToNode fuel target s1
        | none => executeSteps fuel { s1 with currentStepIndex := s1.currentStepIndex + 1 }
    | none => .ok s
  | _ => .ok s

/-- The constructor's state initialisation: the story reference and a copy
of its vars (`{ ...storyData.vars }` — the engine's copy and the
document's mapping are separate objects from here on, which the model
renders as separate fields). -/
def mkEngineState (story : Story) : EngineState where
  story := story
  vars := story.vars
  currentNode := none
  currentStepIndex := 0
  currentSteps := []
  waitingForInput := false
  visibleLeft := none
  visibleCenter := none
  visibleRight := none
  output := []
  logs := []

/-- `init()`'s story start: jump to `story.start` from the freshly
constructed state. -/
def initEngine (fuel : Nat) (story : Story) : Except RTErr EngineState :=
  jumpToNode fuel story.start (mkEngineState story)

/-- Is the pending step at the cursor a choice (i.e. is the engine awaiting
a choice selection when suspended here)? -/
def atChoiceStep (s : EngineState) : Bool :=
  match s.currentSteps[s.currentStepIndex]? with
  | some (.choice _ _) => true
  | _ => false

/-! ## The validator (`validator.js`) -/

/-- One validation finding: `{type: 'error'|'warning', message, location?}`. -/
structure Diagnostic where
  type : String
  message : String
  location : Option String
deriving DecidableEq, Repr

/-- The accumulator threaded through `validateNodes`: the diagnostics list
and the `referencedNodeIds` set (a deduplicating, insertion-ordered set,
like a JS `Set`). -/
abbrev VAcc := List Diagnostic × List String

/-- Push an error diagnostic. -/
def pushE (acc : VAcc) (msg loc : String) : VAcc :=
  (acc.1 ++ [⟨"error", msg, some loc⟩], acc.2)

/-- Push a warning diagnostic. -/
def pushW (acc : VAcc) (msg loc : String) : VAcc :=
  (acc.1 ++ [⟨"warning", msg, some loc⟩], acc.2)

/-- `referencedNodeIds.add(id)`: JS `Set` insertion. -/
def addRef (acc : VAcc) (id : String) : VAcc :=
  (acc.1, if acc.2.contains id then acc.2 else acc.2 ++ [id])

/-- `Set` insertion for the collected node-id set. -/
def insertId (ids : List String) (id : String) : List String :=
  if ids.contains id then ids else ids ++ [id]

/-- The validator's own `resolveNode` (`validator.js` lines 75–87): walk the
segments, succeed only on a leaf. -/
def vResolveNode (nodes : List (String × NodeTree)) (nodeId : String) : Option (List Step) :=
  match walkPath (.group nodes) (splitOnDot nodeId) with
  | some (.leaf steps) => some steps
  | _ => none

/-- `prefix ? `${prefix}.${key}` : key` — the dotted id of a child. -/
def mkId (pre key : String) : String :=
  if pre.isEmpty then key else pre ++ "." ++ key

mutual

/-- One entry of `collectNodeIds`: a leaf records its dotted id, a group
recurses. -/
def collectT : NodeTree → String → List String → List String
  | .leaf _, fullId, ids => insertId ids fullId
  | .group cs, fullId, ids => collectL cs fullId ids

/-- `collectNodeIds(nodes, prefix)` over an entry list, accumulating into
`ids` in insertion order. -/
def collectL : List (String × NodeTree) → String → List String → List String
  | [], _, ids => ids
  | (key, t) :: rest, pre, ids => collectL rest pre (collectT t (mkId pre key) ids)

end

/-- The truthy targets of a choice's options, in option order. -/
def optionTargets : List ChoiceOption → List String
  | [] => []
  | o :: rest =>
    match jsTruthy o.nodeId with
    | some t => t :: optionTargets rest
    | none => optionTargets rest

/-- The targets a single step adds to `referencedNodeIds`: a truthy
`jump_to` target, a truthy then / else target of a `conditional_jump`, and
every truthy choice-option target. Stated independently of the validator's
accumulator threading. -/
def stepTargets : Step → List String
  | .jump_to nodeId => if nodeId.isEmpty then [] else [nodeId]
  | .conditional_jump _ thenN elseN =>
    (match jsTruthy thenN with
     | some t => [t]
     | none => []) ++
    (match jsTruthy elseN with
     | some e => [e]
     | none => [])
  | .choice _ options => optionTargets options
  | _ => []

/-- All targets of a step sequence, in step order. -/
def stepsTargets : List Step → List String
  | [] => []
  | st :: rest => stepTargets st ++ stepsTargets rest

mutual

/-- All jump / conditional / choice targets occurring in a node tree. -/
def treeTargetsT : NodeTree → List String
  | .leaf steps => stepsTargets steps
  | .group cs => treeTargetsL cs

/-- All targets occurring under an entry list. -/
def treeTargetsL : List (String × NodeTree) → List String
  | [] => []
  | (_, t) :: rest => treeTargetsT t ++ treeTargetsL rest

end

/-- The per-option loop of the choice case of `validateSteps`: a missing
label is an error, a truthy target is added to the referenced set. -/
def validateOptions (loc : String) : Nat → List ChoiceOption → VAcc → VAcc
  | _, [], acc => acc
  | i, o :: rest, acc =>
    let a1 :=
      if o.label.isEmpty then
        pushE acc (s!"choice option {i} missing label") (s!"{loc}.options[{i}]")
      else acc
    let a2 :=
      match jsTruthy o.nodeId with
      | some t => addRef a1 t
      | none => a1
    validateOptions loc (i + 1) rest a2

/-- The per-step switch of `validateSteps`; returns the updated accumulator
and whether this step kind marks the node as properly ending
(`hasEnding`). Checks the model makes unrepresentable (missing `type`,
non-array `options`, missing `test` / `value` functions) are omitted: the
step grammar already guarantees them. -/
def validateStep (story : Story) (nodeId : String) (i : Nat) (step : Step)
    (acc : VAcc) : VAcc × Bool :=
  let loc := s!"{nodeId}[{i}]"
  match step with
  | .background id =>
    (if id.isEmpty then pushE acc "background step missing \"id\" property" loc
     else if !hasKey story.places id then
       pushE acc (s!"Background \"{id}\" not defined in story.places") loc
     else acc, false)
  | .show_character id pose position =>
    let a1 :=
      if id.isEmpty then pushE acc "show_character step missing \"id\" property" loc
      else if !hasKey story.characters id then
        pushE acc (s!"Character \"{id}\" not defined in story.characters") loc
      else
        match pose, lookupA story.characters id with
        | some poseName, some ch =>
          if (jsTruthy (lookupA ch.poses poseName)).isNone then
            pushE acc (s!"Pose \"{poseName}\" not defined for character \"{id}\"") loc
          else acc
        | _, _ => acc
    let a2 := if pose.isNone then
        pushW a1 "show_character step missing \"pose\" property" loc
      else a1
    let a3 := if position.isNone then
        pushW a2 "show_character step missing \"position\" property" loc
      else a2
    (a3, false)
  | .hide_character id =>
    (if id.isEmpty then pushE acc "hide_character step missing \"id\" property" loc
     else acc, false)
  | .dialogue who text =>
    let a1 :=
      if who.isEmpty then pushE acc "dialogue step missing \"who\" property" loc
      else if !hasKey story.characters who then
        pushE acc (s!"Character \"{who}\" in dialogue not defined in story.characters") loc
      else acc
    let a2 :=
      if text.isEmpty then pushE a1 "dialogue step missing \"text\" property" loc
      else a1
    (a2, false)
  | .narration text =>
    (if text.isEmpty then pushE acc "narration step missing \"text\" property" loc
     else acc, false)
  | .set_variable key _ =>
    (if key.isEmpty then pushE acc "set_variable step missing \"key\" property" loc
     else acc, false)
  | .jump_to nodeId' =>
    (if nodeId'.isEmpty then pushE acc "jump_to step missing \"nodeId\" property" loc
     else addRef acc nodeId', true)
  | .conditional_jump _ thenN elseN =>
    let a1 :=
      match jsTruthy thenN with
      | none => pushE acc "conditional_jump step missing \"thenNodeId\" property" loc
      | some t => addRef acc t
    let a2 :=
      match jsTruthy elseN with
      | none => a1
      | some e => addRef a1 e
    (a2, true)
  | .choice prompt options =>
    let a1 :=
      if (jsTruthy prompt).isNone then
        pushW acc "choice step missing \"prompt\" property" loc
      else acc
    let a2 :=
      if options.isEmpty then pushE a1 "choice step has no options" loc
      else validateOptions loc 0 options a1
    (a2, true)
  | .end_story => (acc, true)

/-- The indexed step loop of `validateSteps`, finishing with the
"stops abruptly" warning when no step marked an ending. -/
def validateStepsGo (story : Story) (nodeId : String) :
    Nat → List Step → VAcc → Bool → VAcc
  | _, [], acc, hasEnding =>
    if hasEnding then acc
    else
      pushW acc
        (s!"Node \"{nodeId}\" does not end with a jump, choice, or end_story (will stop abruptly)")
        nodeId
  | i, st :: rest, acc, hasEnding =>
    let r := validateStep story nodeId i st acc
    validateStepsGo story nodeId (i + 1) rest r.1 (hasEnding || r.2)

/-- `validateSteps(steps, nodeId, ...)`: an empty node only warns and
returns (the per-step loop and ending check are skipped). The model's
`steps` is always a list, so the non-array error cannot arise. -/
def validateSteps (story : Story) (steps : List Step) (nodeId : String)
    (acc : VAcc) : VAcc :=
  if steps.isEmpty then pushW acc (s!"Node \"{nodeId}\" has no steps (empty)") nodeId
  else validateStepsGo story nodeId 0 steps acc false

mutual

/-- One entry of `validateNodes`: a leaf is a node with steps, a group
recurses. The model's tree has only these two shapes, so the source's
"invalid value" error cannot arise. -/
def validateNodesT (story : Story) : NodeTree → String → VAcc → VAcc
  | .leaf steps, fullId, acc => validateSteps story steps fullId acc
  | .group cs, fullId, acc => validateNodesL story cs fullId acc

/-- `validateNodes(nodes, prefix, ...)` over an entry list. -/
def validateNodesL (story : Story) : List (String × NodeTree) → String → VAcc → VAcc
  | [], _, acc => acc
  | (key, t) :: rest, pre, acc =>
    validateNodesL story rest pre (validateNodesT story t (mkId pre key) acc)

end

/-- The `referencedNodeIds` set after walking all nodes. -/
def referencedNodeIds (story : Story) : List String :=
  (validateNodesL story story.nodes "" ([], [])).2

/-- `collectNodeIds(story.nodes)`: every leaf's dotted path. -/
def allNodeIds (story : Story) : List String :=
  collectL story.nodes "" []

def danglingMsg (nodeId : String) : String :=
  s!"Referenced node \"{nodeId}\" does not exist"

def unreachableMsg (nodeId : String) : String :=
  s!"Node \"{nodeId}\" is defined but never referenced (unreachable)"

/-- The dangling-reference error diagnostic. -/
def danglingDiag (nodeId : String) : Diagnostic :=
  ⟨"error", danglingMsg nodeId, some (s!"jump to \"{nodeId}\"")⟩

/-- The unreachable-node warning diagnostic. -/
def unreachableDiag (nodeId : String) : Diagnostic :=
  ⟨"warning", unreachableMsg nodeId, some nodeId⟩

/-- `validateStory(story)`: required-field checks, start resolution, the
per-node walk (which also collects the referenced set), then one error per
referenced-but-undefined node and one warning per defined-but-unreferenced
non-start node. The model's story always has `nodes` and a variables map,
so the source's missing-`nodes` error and missing-`variables` warning
cannot arise. -/
def validateStory (story : Story) : List Diagnostic :=
  let startErrs : List Diagnostic :=
    if story.start.isEmpty then
      [⟨"error", "Story missing required \"start\" property", none⟩]
    else []
  let startResolve : List Diagnostic :=
    if !story.start.isEmpty && (vResolveNode story.nodes story.start).isNone then
      [⟨"error", s!"Start node \"{story.start}\" does not exist", some "story.start"⟩]
    else []
  let allIds := collectL story.nodes "" []
  let vr := validateNodesL story story.nodes "" ([], [])
  let dangling := (vr.2.filter (fun id => !allIds.contains id)).map danglingDiag
  let unreachable :=
    (allIds.filter (fun id => id != story.start && !vr.2.contains id)).map unreachableDiag
  startErrs ++ startResolve ++ vr.1 ++ dangling ++ unreachable

/-! ## Concrete stories and states used to instantiate the theorems -/

/-- A tree with group `A` containing only leaf `A.C` — so the path `A.B`
fails at its second segment. -/
def exTree : List (String × NodeTree) :=
  [("A", .group [("C", .leaf [])])]

/-- A story that suspends on a choice whose only option stays in the node,
with a further step after the choice. -/
def c1Story : Story where
  start := "Start"
  vars := []
  nodes := [("Start", .leaf [.choice (some "Pick") [⟨"Stay", none, none⟩], .narration "after"])]
  characters := []
  places := []

/-- The engine state after starting `c1Story`: suspended on the choice. -/
def c1AfterInit : EngineState :=
  match initEngine 9 c1Story with
  | .ok s => s
  | .error _ => mkEngineState c1Story

/-- A choice effect that records `color = "red"`. -/
def c3RedEff : State → Except RTErr State :=
  fun st => .ok ⟨setA st.vars "color" (.vStr "red")⟩

/-- A labelled option with a null target and the red effect. -/
def c3Opt : ChoiceOption :=
  ⟨"Red", none, some c3RedEff⟩

/-- The spec's null-target choice scenario: an effectful option that stays
in the node, followed by a narration. -/
def c3Story : Story where
  start := "Start"
  vars := []
  nodes := [("Start", .leaf [.choice (some "Pick") [c3Opt], .narration "done"])]
  characters := []
  places := []

/-- The engine state after starting `c3Story`: suspended on the choice. -/
def c3AfterInit : EngineState :=
  match initEngine 9 c3Story with
  | .ok s => s
  | .error _ => mkEngineState c3Story

/-- Two leaf nodes for jump demonstrations. -/
def c4Story : Story where
  start := "A"
  vars := []
  nodes := [("A", .leaf [.jump_to "B"]), ("B", .leaf [.end_story])]
  characters := []
  places := []

/-- A state deep in node `A` (cursor 5) from which a jump to `B` starts. -/
def c4State : EngineState :=
  { mkEngineState c4Story with
      currentNode := some "A", currentSteps := [.jump_to "B"], currentStepIndex := 5 }

/-- A small story with one character and one place, for the lookup-failure
and fallthrough demonstrations. -/
def demoStory : Story where
  start := "Start"
  vars := [("score", .vInt 0)]
  nodes := [("Start", .leaf [.end_story]), ("Win", .leaf [.end_story])]
  characters := [("alice", ⟨"Alice", [("neutral", "img/alice.png")]⟩)]
  places := [("park", "img/park.png")]

/-- A running state in `demoStory`'s `Start` node. -/
def demoState : EngineState :=
  { mkEngineState demoStory with
      currentNode := some "Start", currentSteps := [.end_story], currentStepIndex := 0 }

/-- An `Ended` state reached the ordinary way (the walk executed
`end_story` with no suspension pending): `waitingForInput` is false. -/
def endedState : EngineState :=
  match executeSteps 9 demoState with
  | .ok s => s
  | .error _ => demoState

/-- A running state whose pending step is a false conditional with no else,
followed by a narration. -/
def c5State : EngineState :=
  { mkEngineState demoStory with
      currentNode := some "Start",
      currentSteps := [.conditional_jump (fun _ => .ok false) (some "Win") none, .narration "on"],
      currentStepIndex := 0 }

/-- A running state whose pending step is a true conditional with a missing
then-target. -/
def c10State : EngineState :=
  { mkEngineState demoStory with
      currentNode := some "Start",
      currentSteps := [.conditional_jump (fun _ => .ok true) none (some "Win"), .narration "on"],
      currentStepIndex := 0 }

/-- A story with a dangling jump target and an unreachable node. -/
def c6Story : Story where
  start := "Start"
  vars := []
  nodes := [("Start", .leaf [.jump_to "Nowhere"]), ("Orphan", .leaf [.end_story])]
  characters := []
  places := []

/-- A story whose first step jumps to a missing node, with a narration
after it that the engine never reaches. -/
def c7Story : Story where
  start := "Start"
  vars := []
  nodes := [("Start", .leaf [.jump_to "Nope", .narration "next"])]
  characters := []
  places := []

/-- A story where the only path to `end_story` is a choice selection: the
choice handler never clears `waitingForInput`, so the ended state still
accepts an `advance()`. -/
def c8Story : Story where
  start := "Start"
  vars := []
  nodes := [("Start", .leaf [.choice (some "Pick") [⟨"Go", some "End", none⟩]]),
            ("End", .leaf [.end_story, .narration "after the end"])]
  characters := []
  places := []

/-- A running state about to execute a `set_variable` step. -/
def c9s0 : EngineState :=
  { mkEngineState demoStory with
      currentNode := some "Start",
      currentSteps := [.set_variable "x" (.const (.vInt 7)), .narration "hi"],
      currentStepIndex := 0 }

/-- The state `c9s0` reaches: the variable written, suspended on the
narration. -/
def c9s1 : EngineState :=
  match executeSteps 9 c9s0 with
  | .ok s => s
  | .error _ => c9s0

/-! ## Resolver lemmas -/

/-- When the first `i` segments of `parts` resolve to `t'` and segment `i`
is absent there, the resolver's walk fails and reports the dot-joined
prefix up to AND INCLUDING the missing segment (`parts.slice(0, i + 1)`),
prefixed by the already-consumed accumulator. -/
theorem resolveGo_notFound (nodeId : String) :
    ∀ (i : Nat) (parts : List String) (t t' : NodeTree) (done : List String) (p : String),
      parts[i]? = some p →
      walkPath t (parts.take i) = some t' →
      childLookup t' p = none →
      resolveGo nodeId t parts done =
        .notFound nodeId (joinDot (done ++ parts.take (i + 1))) := by
  intro i
  induction i with
  | zero =>
    intro parts t t' done p hp hw hc
    cases parts with
    | nil => simp at hp
    | cons q rest =>
      simp only [List.getElem?_cons_zero, Option.some.injEq] at hp
      subst hp
      simp only [List.take_zero, walkPath, Option.some.injEq] at hw
      subst hw
      simp [resolveGo, hc, List.take_succ_cons]
  | succ i ih =>
    intro parts t t' done p hp hw hc
    cases parts with
    | nil => simp at hp
    | cons q rest =>
      simp only [List.getElem?_cons_succ] at hp
      rw [List.take_succ_cons] at hw
      simp only [walkPath] at hw
      cases hq : childLookup t q with
      | none => rw [hq] at hw; simp at hw
      | some c =>
        rw [hq] at hw
        have key := ih rest c t' (done ++ [q]) p hp hw hc
        simp only [resolveGo, hq, key, List.take_succ_cons]
        congr 1
        simp [joinDot, List.append_assoc]

/-- When the whole path resolves to a group, the resolver reports the
group failure. -/
theorem resolveGo_isGroup (nodeId : String) :
    ∀ (parts : List String) (t : NodeTree) (done : List String)
      (cs : List (String × NodeTree)),
      walkPath t parts = some (.group cs) →
      resolveGo nodeId t parts done = .isGroup nodeId := by
  intro parts
  induction parts with
  | nil =>
    intro t done cs hw
    simp only [walkPath, Option.some.injEq] at hw
    subst hw
    simp [resolveGo]
  | cons q rest ih =>
    intro t done cs hw
    simp only [walkPath] at hw
    cases hq : childLookup t q with
    | none => rw [hq] at hw; simp at hw
    | some c =>
      rw [hq] at hw
      simp only [resolveGo, hq]
      exact ih c (done ++ [q]) cs hw

/-! ## Claim theorems -/

/-- C2 (amended): for every node tree and dotted path, when the first
absent segment is segment `i` (the first `i` segments resolve and segment
`i` does not), `resolveNode` fails with `NodeNotFound` carrying the
requested path and the dot-joined prefix of segments up to and including
the missing segment; when the full path resolves to a group, it fails with
the distinct `NodePathIsGroup` result. -/
theorem resolveNode_failure_reporting (nodes : List (String × NodeTree)) (nodeId : String) :
    (∀ (i : Nat) (p : String) (t' : NodeTree),
      (splitOnDot nodeId)[i]? = some p →
      walkPath (.group nodes) ((splitOnDot nodeId).take i) = some t' →
      childLookup t' p = none →
      resolveNode nodes nodeId =
        .notFound nodeId (joinDot ((splitOnDot nodeId).take (i + 1)))) ∧
    (∀ cs, walkPath (.group nodes) (splitOnDot nodeId) = some (.group cs) →
      resolveNode nodes nodeId = .isGroup nodeId) := by
  constructor
  · intro i p t' hp hw hc
    have := resolveGo_notFound nodeId i (splitOnDot nodeId) (.group nodes) t' [] p hp hw hc
    simpa [resolveNode] using this
  · intro cs hw
    have := resolveGo_isGroup nodeId (splitOnDot nodeId) (.group nodes) [] cs hw
    simpa [resolveNode] using this

/-- C2 (counterexample to the claim as stated): in `exTree` the path
`"A.B"` fails at its second segment; the code reports the failure prefix
`"A.B"` — the missing segment included — not `"A"`, the longest prefix
that did resolve, which is what the claim says is carried. -/
theorem resolveNode_reported_prefix_includes_missing_segment :
    resolveNode exTree "A.B" = .notFound "A.B" "A.B" ∧
    ResolveResult.notFound "A.B" "A.B" ≠ ResolveResult.notFound "A.B" "A" := by
  refine ⟨rfl, ?_⟩
  intro h
  injection h with h1 h2
  exact absurd h2 (by decide)

/-- C2 (witness): the amended theorem applied to `exTree`: `"A.B"` fails at
segment 1 and reports prefix `"A.B"`; `"A"` resolves to a group and is
reported as such. -/
theorem resolveNode_failure_reporting_witness :
    (splitOnDot "A.B")[1]? = some "B" ∧
    walkPath (.group exTree) ((splitOnDot "A.B").take 1) = some (.group [("C", .leaf [])]) ∧
    childLookup (.group [("C", NodeTree.leaf [])]) "B" = none ∧
    resolveNode exTree "A.B" = .notFound "A.B" (joinDot ((splitOnDot "A.B").take 2)) ∧
    joinDot ((splitOnDot "A.B").take 2) = "A.B" ∧
    walkPath (.group exTree) (splitOnDot "A") = some (.group [("C", .leaf [])]) ∧
    resolveNode exTree "A" = .isGroup "A" :=
  ⟨rfl, rfl, rfl,
   (resolveNode_failure_reporting exTree "A.B").1 1 "B" (.group [("C", .leaf [])]) rfl rfl rfl,
   rfl, rfl,
   (resolveNode_failure_reporting exTree "A").2 [("C", .leaf [])] rfl⟩

/-- C1 (amended): `advance()` is a no-op exactly in the states where no
suspension flag is pending (`waitingForInput = false`) — in particular in
an `Ended` state reached by advancing past a dialogue or narration. It is
NOT a no-op while a choice is pending, because `showChoices` sets
`waitingForInput`, so the claim's `AwaitingChoice` case fails on the code
(see the counterexample). -/
theorem advance_noop_when_not_waiting (fuel : Nat) (s : EngineState)
    (h : s.waitingForInput = false) :
    advance fuel s = .ok s := by
  simp [advance, h]

/-- C1 (witness): in an `Ended` state reached through the normal walk the
suspension flag is clear and `advance()` returns the state unchanged. -/
theorem advance_noop_when_not_waiting_witness :
    endedState.waitingForInput = false ∧
    endedState.output = [.showEnded] ∧
    advance 9 endedState = .ok endedState :=
  ⟨rfl, rfl, advance_noop_when_not_waiting 9 endedState rfl⟩

/-- C1 (counterexample): in the `AwaitingChoice` state of `c1Story` the
suspension flag is set, so `advance()` is not a no-op — it increments the
cursor past the pending choice and executes the following narration step
(output grows from 1 to 2 commands). -/
theorem advance_in_awaiting_choice_changes_state :
    c1AfterInit.waitingForInput = true ∧
    atChoiceStep c1AfterInit = true ∧
    c1AfterInit.currentStepIndex = 0 ∧
    c1AfterInit.output.length = 1 ∧
    (advance 9 c1AfterInit).map (fun s => (s.currentStepIndex, s.output.length)) =
      .ok (1, 2) ∧
    advance 9 c1AfterInit ≠ .ok c1AfterInit := by
  refine ⟨rfl, rfl, rfl, rfl, rfl, ?_⟩
  intro h
  have hx : (Except.ok ((1 : Nat), (2 : Nat)) : Except RTErr (Nat × Nat)) = .ok (0, 1) := by
    calc (Except.ok ((1 : Nat), (2 : Nat)) : Except RTErr (Nat × Nat))
        = (advance 9 c1AfterInit).map (fun s => (s.currentStepIndex, s.output.length)) := rfl
      _ = (Except.ok c1AfterInit).map (fun s => (s.currentStepIndex, s.output.length)) := by
          rw [h]
      _ = .ok (0, 1) := rfl
  simp at hx

/-- C4: any successful jump — `jumpToNode` itself, a `jump_to` step, the
taken then- or else-branch of a `conditional_jump`, or a choice option
with a truthy target — replaces the current step sequence with the
target's and enters the walk with the cursor at exactly 0, regardless of
the prior cursor value. -/
theorem jump_resets_cursor (fuel : Nat) (nodeId : String) (s : EngineState)
    (steps : List Step)
    (h : resolveNode s.story.nodes nodeId = .found steps) :
    (jumpToNode (fuel + 1) nodeId s =
      executeSteps fuel
        { s with currentNode := some nodeId, currentSteps := steps,
                 currentStepIndex := 0 }) ∧
    (executeStep (fuel + 1) (.jump_to nodeId) s =
      (jumpToNode fuel nodeId s).map (fun s2 => (s2, true))) ∧
    (∀ test thenN elseN, test ⟨s.vars⟩ = .ok true → jsTruthy thenN = some nodeId →
      executeStep (fuel + 1) (.conditional_jump test thenN elseN) s =
        (jumpToNode fuel nodeId s).map (fun s2 => (s2, true))) ∧
    (∀ test thenN elseN, test ⟨s.vars⟩ = .ok false → jsTruthy elseN = some nodeId →
      executeStep (fuel + 1) (.conditional_jump test thenN elseN) s =
        (jumpToNode fuel nodeId s).map (fun s2 => (s2, true))) ∧
    (∀ i prompt options opt,
      s.currentSteps[s.currentStepIndex]? = some (.choice prompt options) →
      (options.filter labelTruthy)[i]? = some opt →
      opt.effectFn = none → jsTruthy opt.nodeId = some nodeId →
      choose (fuel + 1) i s =
        executeSteps fuel
          { s with currentNode := some nodeId, currentSteps := steps,
                   currentStepIndex := 0 }) := by
  refine ⟨?_, ?_, ?_, ?_, ?_⟩
  · simp only [jumpToNode, h]
  · cases hj : jumpToNode fuel nodeId s <;> simp [executeStep, hj, Except.map]
  · intro test thenN elseN ht hthen
    cases hj : jumpToNode fuel nodeId s <;>
      simp [executeStep, ht, hthen, hj, Except.map]
  · intro test thenN elseN ht helse
    cases hj : jumpToNode fuel nodeId s <;>
      simp [executeStep, ht, helse, hj, Except.map]
  · intro i prompt options opt hstep hopt heff htarget
    simp only [choose, hstep, hopt, heff, htarget, jumpToNode, h]

/-- C4 (witness): from a state with cursor 5 in node `A`, the jump to `B`
enters `B`'s sequence at cursor 0. -/
theorem jump_resets_cursor_witness :
    resolveNode c4State.story.nodes "B" = .found [Step.end_story] ∧
    jumpToNode 9 "B" c4State =
      executeSteps 8
        { c4State with currentNode := some "B", currentSteps := [Step.end_story],
                       currentStepIndex := 0 } :=
  ⟨rfl, (jump_resets_cursor 8 "B" c4State [Step.end_story] rfl).1⟩

/-- C5: a `conditional_jump` whose predicate is false and whose else-target
is falsy changes nothing at all — no suspension, no node change, no display
command — and in the walk the cursor simply advances by one to the next
step of the same sequence. -/
theorem conditional_fallthrough (fuel : Nat) (s : EngineState)
    (test : State → Except RTErr Bool) (thenN elseN : Option String)
    (hfalse : test ⟨s.vars⟩ = .ok false) (helse : jsTruthy elseN = none) :
    executeStep (fuel + 1) (.conditional_jump test thenN elseN) s = .ok (s, false) ∧
    (s.currentSteps[s.currentStepIndex]? = some (.conditional_jump test thenN elseN) →
      executeSteps (fuel + 2) s =
        executeSteps (fuel + 1) { s with currentStepIndex := s.currentStepIndex + 1 }) := by
  have h1 : executeStep (fuel + 1) (.conditional_jump test thenN elseN) s = .ok (s, false) := by
    simp [executeStep, hfalse, helse]
  refine ⟨h1, ?_⟩
  intro hstep
  show executeSteps ((fuel + 1) + 1) s = _
  simp only [executeSteps, hstep, h1]
  simp

/-- C5 (witness): the false conditional with no else in `c5State` is inert
and the walk proceeds to the narration after it. -/
theorem conditional_fallthrough_witness :
    ((fun _ => Except.ok false : State → Except RTErr Bool) ⟨c5State.vars⟩ = .ok false) ∧
    jsTruthy none = none ∧
    executeStep 9 (.conditional_jump (fun _ => .ok false) (some "Win") none) c5State =
      .ok (c5State, false) :=
  ⟨rfl, rfl,
   (conditional_fallthrough 8 c5State (fun _ => .ok false) (some "Win") none rfl rfl).1⟩

/-- C10: a `conditional_jump` whose predicate is true but whose then-target
is falsy performs no jump and does not suspend: exactly as in the
false-with-no-else case, the step is inert and the walk advances by one in
the same sequence (whatever the else-target is). -/
theorem conditional_true_missing_then_falls_through (fuel : Nat) (s : EngineState)
    (test : State → Except RTErr Bool) (thenN elseN : Option String)
    (htrue : test ⟨s.vars⟩ = .ok true) (hthen : jsTruthy thenN = none) :
    executeStep (fuel + 1) (.conditional_jump test thenN elseN) s = .ok (s, false) ∧
    (s.currentSteps[s.currentStepIndex]? = some (.conditional_jump test thenN elseN) →
      executeSteps (fuel + 2) s =
        executeSteps (fuel + 1) { s with currentStepIndex := s.currentStepIndex + 1 }) := by
  have h1 : executeStep (fuel + 1) (.conditional_jump test thenN elseN) s = .ok (s, false) := by
    simp [executeStep, htrue, hthen]
  refine ⟨h1, ?_⟩
  intro hstep
  show executeSteps ((fuel + 1) + 1) s = _
  simp only [executeSteps, hstep, h1]
  simp

/-- C10 (witness): the true conditional with a missing then-target in
`c10State` is inert even though an else-target is present. -/
theorem conditional_true_missing_then_witness :
    ((fun _ => Except.ok true : State → Except RTErr Bool) ⟨c10State.vars⟩ = .ok true) ∧
    jsTruthy (none : Option String) = none ∧
    executeStep 9 (.conditional_jump (fun _ => .ok true) none (some "Win")) c10State =
      .ok (c10State, false) :=
  ⟨rfl, rfl,
   (conditional_true_missing_then_falls_through 8 c10State (fun _ => .ok true) none
     (some "Win") rfl rfl).1⟩

/-- C8 (code bug, demonstrated): in `c8Story` the only route to
`end_story` is the choice selection; the choice click handler never clears
`waitingForInput`, so after `end_story` has executed (the `Ended` state,
`showEnded` emitted, cursor 0) a further `advance()` is NOT a no-op — it
increments the cursor and executes the narration placed after `end_story`. -/
theorem advance_after_end_executes_step :
    ((initEngine 9 c8Story).bind (choose 9 0)).map
        (fun s => (s.currentStepIndex, s.waitingForInput, s.output)) =
      .ok (0, true, [.showChoiceMenu "Pick" ["Go"], .showEnded]) ∧
    (((initEngine 9 c8Story).bind (choose 9 0)).bind (advance 9)).map
        (fun s => (s.currentStepIndex, s.output)) =
      .ok (1, [.showChoiceMenu "Pick" ["Go"], .showEnded, .showNarration "after the end"]) :=
  ⟨rfl, rfl⟩

/-- C7 (counterexample to the claim as stated): a `jump_to` to a missing
node is logged, but execution does NOT continue with the next step: the
step reports "pause", the walk stops, and the narration after the failed
jump never runs (cursor still 0, no output, no suspension flag). -/
theorem jump_failure_halts_node :
    (initEngine 9 c7Story).map
        (fun s => (s.currentStepIndex, s.currentNode, s.output, s.waitingForInput)) =
      .ok (0, some "Start", [], false) ∧
    (initEngine 9 c7Story).map (fun s => s.logs) =
      .ok [nodeNotFoundMsg "Nope" "Nope", cannotJumpMsg "Nope"] :=
  ⟨rfl, rfl⟩

/-- C3: selecting option `i` of the pending choice first runs the option's
effect function — an effect exception propagates and no transfer happens —
and only afterwards transfers control from the effect-updated state: to the
target node with the cursor reset to 0 when the target is truthy, else to
the next cursor of the current node. With no effect the transfer starts
from the unchanged state. -/
theorem choose_effect_before_transfer (fuel i : Nat) (s : EngineState)
    (prompt : Option String) (options : List ChoiceOption) (opt : ChoiceOption)
    (hstep : s.currentSteps[s.currentStepIndex]? = some (.choice prompt options))
    (hopt : (options.filter labelTruthy)[i]? = some opt) :
    (∀ f e, opt.effectFn = some f → f ⟨s.vars⟩ = .error e →
      choose fuel i s = .error e) ∧
    (∀ f st, opt.effectFn = some f → f ⟨s.vars⟩ = .ok st →
      choose fuel i s =
        (match jsTruthy opt.nodeId with
         | some target => jumpToNode fuel target { s with vars := st.vars }
         | none =>
           executeSteps fuel
             { s with vars := st.vars, currentStepIndex := s.currentStepIndex + 1 })) ∧
    (∀ f st target steps, opt.effectFn = some f → f ⟨s.vars⟩ = .ok st →
      jsTruthy opt.nodeId = some target →
      resolveNode s.story.nodes target = .found steps →
      choose (fuel + 1) i s =
        executeSteps fuel
          { s with vars := st.vars, currentNode := some target, currentSteps := steps,
                   currentStepIndex := 0 }) ∧
    (opt.effectFn = none →
      choose fuel i s =
        (match jsTruthy opt.nodeId with
         | some target => jumpToNode fuel target s
         | none => executeSteps fuel { s with currentStepIndex := s.currentStepIndex + 1 })) := by
  refine ⟨?_, ?_, ?_, ?_⟩
  · intro f e heff herr
    simp only [choose, hstep, hopt, heff, herr]
  · intro f st heff hok
    simp only [choose, hstep, hopt, heff, hok]
  · intro f st target steps heff hok htarget hres
    simp only [choose, hstep, hopt, heff, hok, htarget, jumpToNode, hres]
  · intro heff
    simp only [choose, hstep, hopt, heff]

/-- C3 (witness): in the suspended choice of `c3Story`, choosing the
null-target option runs the red effect and then resumes the walk at the
next cursor of the same node, from the state the effect produced. -/
theorem choose_effect_before_transfer_witness :
    c3AfterInit.currentSteps[c3AfterInit.currentStepIndex]? =
      some (.choice (some "Pick") [c3Opt]) ∧
    ([c3Opt].filter labelTruthy)[0]? = some c3Opt ∧
    c3Opt.effectFn = some c3RedEff ∧
    c3RedEff ⟨c3AfterInit.vars⟩ = .ok ⟨[("color", .vStr "red")]⟩ ∧
    choose 9 0 c3AfterInit =
      executeSteps 9
        { c3AfterInit with vars := [("color", .vStr "red")],
                           currentStepIndex := c3AfterInit.currentStepIndex + 1 } :=
  ⟨rfl, rfl, rfl, rfl,
   (choose_effect_before_transfer 9 0 c3AfterInit (some "Pick") [c3Opt] c3Opt rfl rfl).2.1
     c3RedEff ⟨[("color", .vStr "red")]⟩ rfl rfl⟩

/-- C7 (amended): an exception inside a `set_variable` compute function or
a choice effect function propagates out of `executeStep` / the choose
handler. Lookup failures for characters, places, poses and positions are
logged and inert, with the walk continuing (the step reports no pause).
A node-resolution failure in a `jump_to` is logged, but the step still
reports a pause, so the current node's walk halts instead of continuing —
this is where the original claim's "execution continuing" fails (see the
counterexample). -/
theorem exception_propagation_and_lookup_noops (fuel : Nat) (s : EngineState) :
    (∀ key f e, key.isEmpty = false → f ⟨s.vars⟩ = .error e →
      executeStep (fuel + 1) (.set_variable key (.compute f)) s = .error e) ∧
    (∀ i prompt options opt f e,
      s.currentSteps[s.currentStepIndex]? = some (.choice prompt options) →
      (options.filter labelTruthy)[i]? = some opt →
      opt.effectFn = some f → f ⟨s.vars⟩ = .error e →
      choose fuel i s = .error e) ∧
    (∀ charId pose position, lookupA s.story.characters charId = none →
      executeStep (fuel + 1) (.show_character charId pose position) s =
        .ok (logErr s (charNotFoundMsg charId), false)) ∧
    (∀ charId ch poseName pose position,
      lookupA s.story.characters charId = some ch →
      jsTruthy pose = some poseName →
      jsTruthy (lookupA ch.poses poseName) = none →
      executeStep (fuel + 1) (.show_character charId pose position) s =
        .ok (logErr s (poseNotFoundMsg poseName charId), false)) ∧
    (∀ charId ch poseName imagePath pose position positionName,
      lookupA s.story.characters charId = some ch →
      jsTruthy pose = some poseName →
      jsTruthy (lookupA ch.poses poseName) = some imagePath →
      jsTruthy position = some positionName →
      positionName ≠ "left" → positionName ≠ "center" → positionName ≠ "right" →
      executeStep (fuel + 1) (.show_character charId pose position) s =
        .ok (logErr s (unknownPositionMsg positionName charId), false)) ∧
    (∀ placeId, jsTruthy (lookupA s.story.places placeId) = none →
      executeStep (fuel + 1) (.background placeId) s =
        .ok (logErr s (backgroundNotFoundMsg placeId), false)) ∧
    (∀ nodeId path failedAt,
      resolveNode s.story.nodes nodeId = .notFound path failedAt →
      executeStep (fuel + 2) (.jump_to nodeId) s =
        .ok (logErr (logErr s (nodeNotFoundMsg path failedAt)) (cannotJumpMsg nodeId),
             true)) := by
  refine ⟨?_, ?_, ?_, ?_, ?_, ?_, ?_⟩
  · intro key f e hkey herr
    simp only [executeStep, setVariable, hkey, herr, Bool.false_eq_true, if_false]
  · intro i prompt options opt f e hstep hopt heff herr
    simp only [choose, hstep, hopt, heff, herr]
  · intro charId pose position hchar
    simp only [executeStep, showCharacter, hchar]
  · intro charId ch poseName pose position hchar hpose hlook
    simp only [executeStep, showCharacter, hchar, hpose, hlook]
  · intro charId ch poseName imagePath pose position positionName hchar hpose hlook hposn
      hleft hcenter hright
    simp only [executeStep, showCharacter, hchar, hpose, hlook, hposn, if_neg hleft,
      if_neg hcenter, if_neg hright]
  · intro placeId hplace
    simp only [executeStep, setBackground, hplace]
  · intro nodeId path failedAt hres
    simp only [executeStep, jumpToNode, hres]

/-- C7 (witness): in `demoState` an unknown character, an unknown pose of
the known character, an unknown place, and a jump to a missing node behave
as the amended theorem states, and a throwing compute function propagates
its error. -/
theorem exception_propagation_and_lookup_noops_witness :
    ("x".isEmpty = false) ∧
    ((fun _ => Except.error "boom" : State → Except RTErr Value) ⟨demoState.vars⟩ =
      .error "boom") ∧
    executeStep 9 (.set_variable "x" (.compute (fun _ => .error "boom"))) demoState =
      .error "boom" ∧
    lookupA demoState.story.characters "bob" = none ∧
    executeStep 9 (.show_character "bob" (some "neutral") (some "left")) demoState =
      .ok (logErr demoState (charNotFoundMsg "bob"), false) ∧
    executeStep 9 (.show_character "alice" (some "angry") (some "left")) demoState =
      .ok (logErr demoState (poseNotFoundMsg "angry" "alice"), false) ∧
    executeStep 9 (.background "beach") demoState =
      .ok (logErr demoState (backgroundNotFoundMsg "beach"), false) ∧
    executeStep 9 (.jump_to "Missing") demoState =
      .ok (logErr (logErr demoState (nodeNotFoundMsg "Missing" "Missing"))
            (cannotJumpMsg "Missing"), true) :=
  ⟨rfl, rfl,
   (exception_propagation_and_lookup_noops 8 demoState).1 "x" (fun _ => .error "boom")
     "boom" rfl rfl,
   rfl,
   (exception_propagation_and_lookup_noops 8 demoState).2.2.1 "bob" (some "neutral")
     (some "left") rfl,
   (exception_propagation_and_lookup_noops 8 demoState).2.2.2.1 "alice"
     ⟨"Alice", [("neutral", "img/alice.png")]⟩ "angry" (some "angry") (some "left")
     rfl rfl rfl,
   (exception_propagation_and_lookup_noops 8 demoState).2.2.2.2.2.1 "beach" rfl,
   (exception_propagation_and_lookup_noops 7 demoState).2.2.2.2.2.2 "Missing" "Missing"
     "Missing" rfl⟩

/-! ## Frame lemmas: no engine operation writes the story document -/

theorem logErr_story (s : EngineState) (m : String) : (logErr s m).story = s.story := rfl

theorem setBackground_story (p : String) (s : EngineState) :
    (setBackground p s).story = s.story := by
  unfold setBackground
  split <;> rfl

theorem showCharacter_story (c : String) (pose pos : Option String) (s : EngineState) :
    (showCharacter c pose pos s).story = s.story := by
  unfold showCharacter
  repeat' split
  all_goals rfl

theorem hideCharacter_story (c : String) (s : EngineState) :
    (hideCharacter c s).story = s.story := by
  unfold hideCharacter
  dsimp only
  repeat' split
  all_goals rfl

theorem showDialogue_story (who text : String) (s : EngineState) :
    (showDialogue who text s).story = s.story := by
  unfold showDialogue
  repeat' split
  all_goals rfl

theorem showNarration_story (text : String) (s : EngineState) :
    (showNarration text s).story = s.story := by
  unfold showNarration
  split <;> rfl

theorem showChoices_story (prompt : Option String) (options : List ChoiceOption)
    (s : EngineState) : (showChoices prompt options s).story = s.story := by
  unfold showChoices
  repeat' split
  all_goals rfl

theorem endStory_story (s : EngineState) : (endStory s).story = s.story := rfl

theorem setVariable_story (key : String) (v : StepValue) (s : EngineState) :
    ∀ s', setVariable key v s = .ok s' → s'.story = s.story := by
  intro s' h
  unfold setVariable at h
  split at h
  · injection h with h; subst h; rfl
  · split at h
    · injection h with h; subst h; rfl
    · split at h
      · injection h with h; subst h; rfl
      · exact Except.noConfusion h

/-- The interpreter never writes `EngineState.story`: every `.ok` result of
the walk, of a single step, or of a jump carries the same story document. -/
theorem engine_story_fixed : ∀ fuel : Nat,
    (∀ s s', executeSteps fuel s = .ok s' → s'.story = s.story) ∧
    (∀ step s s' b, executeStep fuel step s = .ok (s', b) → s'.story = s.story) ∧
    (∀ nodeId s s', jumpToNode fuel nodeId s = .ok s' → s'.story = s.story) := by
  intro fuel
  induction fuel with
  | zero =>
    refine ⟨?_, ?_, ?_⟩
    · intro s s' h
      simp only [executeSteps] at h
      injection h with h; subst h; rfl
    · intro step s s' b h
      simp only [executeStep, Except.ok.injEq, Prod.mk.injEq] at h
      obtain ⟨rfl, rfl⟩ := h
      rfl
    · intro nodeId s s' h
      simp only [jumpToNode] at h
      injection h with h; subst h; rfl
  | succ fuel ih =>
    obtain ⟨ihSteps, ihStep, ihJump⟩ := ih
    refine ⟨?_, ?_, ?_⟩
    · intro s s' h
      simp only [executeSteps] at h
      cases hget : s.currentSteps[s.currentStepIndex]? with
      | none =>
        rw [hget] at h
        injection h with h; subst h; rfl
      | some step =>
        rw [hget] at h
        dsimp only at h
        cases hex : executeStep fuel step s with
        | error e => rw [hex] at h; exact Except.noConfusion h
        | ok pr =>
          rw [hex] at h
          obtain ⟨s2, pause⟩ := pr
          have hstory2 := ihStep step s s2 pause hex
          cases pause with
          | true =>
            simp only [if_true] at h
            injection h with h; subst h; exact hstory2
          | false =>
            simp only [Bool.false_eq_true, if_false] at h
            have h3 := ihSteps { s2 with currentStepIndex := s2.currentStepIndex + 1 } s' h
            exact h3.trans hstory2
    · intro step s s' b h
      cases step <;> simp only [executeStep] at h
      case background id =>
        simp only [Except.ok.injEq, Prod.mk.injEq] at h
        obtain ⟨rfl, rfl⟩ := h
        exact setBackground_story _ _
      case show_character id pose pos =>
        simp only [Except.ok.injEq, Prod.mk.injEq] at h
        obtain ⟨rfl, rfl⟩ := h
        exact showCharacter_story _ _ _ _
      case hide_character id =>
        simp only [Except.ok.injEq, Prod.mk.injEq] at h
        obtain ⟨rfl, rfl⟩ := h
        exact hideCharacter_story _ _
      case dialogue who text =>
        simp only [Except.ok.injEq, Prod.mk.injEq] at h
        obtain ⟨rfl, rfl⟩ := h
        exact showDialogue_story _ _ _
      case narration text =>
        simp only [Except.ok.injEq, Prod.mk.injEq] at h
        obtain ⟨rfl, rfl⟩ := h
        exact showNarration_story _ _
      case set_variable key v =>
        cases hsv : setVariable key v s with
        | error e => rw [hsv] at h; exact Except.noConfusion h
        | ok s2 =>
          rw [hsv] at h
          simp only [Except.ok.injEq, Prod.mk.injEq] at h
          obtain ⟨rfl, rfl⟩ := h
          exact setVariable_story key v s s2 hsv
      case jump_to nodeId =>
        cases hj : jumpToNode fuel nodeId s with
        | error e => rw [hj] at h; exact Except.noConfusion h
        | ok s2 =>
          rw [hj] at h
          simp only [Except.ok.injEq, Prod.mk.injEq] at h
          obtain ⟨rfl, rfl⟩ := h
          exact ihJump nodeId s s2 hj
      case conditional_jump test thenN elseN =>
        cases ht : test ⟨s.vars⟩ with
        | error e => rw [ht] at h; exact Except.noConfusion h
        | ok tr =>
          rw [ht] at h
          dsimp only at h
          cases h1 : (if tr = true then jsTruthy thenN else none) with
          | some target =>
            rw [h1] at h
            dsimp only at h
            cases hj : jumpToNode fuel target s with
            | error e => rw [hj] at h; exact Except.noConfusion h
            | ok s2 =>
              rw [hj] at h
              simp only [Except.ok.injEq, Prod.mk.injEq] at h
              obtain ⟨rfl, rfl⟩ := h
              exact ihJump target s s2 hj
          | none =>
            rw [h1] at h
            dsimp only at h
            cases h2 : (if (!tr) = true then jsTruthy elseN else none) with
            | some target =>
              rw [h2] at h
              dsimp only at h
              cases hj : jumpToNode fuel target s with
              | error e => rw [hj] at h; exact Except.noConfusion h
              | ok s2 =>
                rw [hj] at h
                simp only [Except.ok.injEq, Prod.mk.injEq] at h
                obtain ⟨rfl, rfl⟩ := h
                exact ihJump target s s2 hj
            | none =>
              rw [h2] at h
              simp only [Except.ok.injEq, Prod.mk.injEq] at h
              obtain ⟨rfl, rfl⟩ := h
              rfl
      case choice prompt options =>
        simp only [Except.ok.injEq, Prod.mk.injEq] at h
        obtain ⟨rfl, rfl⟩ := h
        exact showChoices_story _ _ _
      case end_story =>
        simp only [Except.ok.injEq, Prod.mk.injEq] at h
        obtain ⟨rfl, rfl⟩ := h
        rfl
    · intro nodeId s s' h
      simp only [jumpToNode] at h
      cases hres : resolveNode s.story.nodes nodeId with
      | found steps =>
        rw [hres] at h
        dsimp only at h
        exact ihSteps
          { s with currentNode := some nodeId, currentSteps := steps, currentStepIndex := 0 }
          s' h
      | notFound p fa =>
        rw [hres] at h
        injection h with h; subst h; rfl
      | isGroup p =>
        rw [hres] at h
        injection h with h; subst h; rfl

/-- C9: at construction the interpreter's variable state is a copy of the
story document's mapping (the source's `{ ...storyData.variables }`; in the
model the copy and the document are separate fields with equal contents),
and no execution — the step walk, `advance()` or a choice selection — ever
changes the story document, in particular its variables mapping. -/
theorem story_variables_never_mutated :
    (∀ story : Story, (mkEngineState story).vars = story.vars) ∧
    (∀ story : Story, (mkEngineState story).story = story) ∧
    (∀ fuel s s', executeSteps fuel s = .ok s' → s'.story.vars = s.story.vars) ∧
    (∀ fuel s s', advance fuel s = .ok s' → s'.story.vars = s.story.vars) ∧
    (∀ fuel i s s', choose fuel i s = .ok s' → s'.story.vars = s.story.vars) := by
  refine ⟨fun _ => rfl, fun _ => rfl, ?_, ?_, ?_⟩
  · intro fuel s s' h
    exact congrArg Story.vars ((engine_story_fixed fuel).1 s s' h)
  · intro fuel s s' h
    unfold advance at h
    split at h
    · exact congrArg Story.vars
        ((engine_story_fixed fuel).1
          { s with waitingForInput := false, currentStepIndex := s.currentStepIndex + 1 }
          s' h)
    · injection h with h; subst h; rfl
  · intro fuel i s s' h
    unfold choose at h
    split at h
    case _ prompt options heq =>
      split at h
      case _ opt hopt =>
        split at h
        case _ e heff => exact Except.noConfusion h
        case _ st heff =>
          split at h
          case _ target htarget =>
            exact congrArg Story.vars
              ((engine_story_fixed fuel).2.2 target { s with vars := st.vars } s' h)
          case _ htarget =>
            exact congrArg Story.vars
              ((engine_story_fixed fuel).1
                { s with vars := st.vars, currentStepIndex := s.currentStepIndex + 1 }
                s' h)
      case _ hopt => injection h with h; subst h; rfl
    case _ hstep => injection h with h; subst h; rfl

/-- C9 (witness): running `c9s0`'s `set_variable` step mutates the
interpreter's variable copy (it gains `x = 7`) while the story document's
mapping is untouched; and construction copies the document's mapping. -/
theorem story_variables_never_mutated_witness :
    (mkEngineState demoStory).vars = demoStory.vars ∧
    executeSteps 9 c9s0 = .ok c9s1 ∧
    c9s1.vars = [("score", .vInt 0), ("x", .vInt 7)] ∧
    c9s0.story.vars = [("score", .vInt 0)] ∧
    c9s1.story.vars = c9s0.story.vars :=
  ⟨story_variables_never_mutated.1 demoStory, rfl, rfl, rfl,
   story_variables_never_mutated.2.2.1 9 c9s0 c9s1 rfl⟩

/-! ## Validator lemmas: the referenced set is exactly the step targets -/

theorem addRef_refs (acc : VAcc) (id x : String) :
    x ∈ (addRef acc id).2 ↔ x ∈ acc.2 ∨ x = id := by
  unfold addRef
  dsimp only
  split
  case isTrue h =>
    constructor
    · exact Or.inl
    · rintro (hx | rfl)
      · exact hx
      · simpa using h
  case isFalse h =>
    simp [List.mem_append]

theorem validateOptions_refs (loc x : String) :
    ∀ (opts : List ChoiceOption) (i : Nat) (acc : VAcc),
      (x ∈ (validateOptions loc i opts acc).2 ↔ x ∈ acc.2 ∨ x ∈ optionTargets opts) := by
  intro opts
  induction opts with
  | nil => intro i acc; simp [validateOptions, optionTargets]
  | cons o rest ih =>
    intro i acc
    cases ho : jsTruthy o.nodeId with
    | none =>
      by_cases hl : o.label.isEmpty <;>
        simp [validateOptions, ho, hl, ih, optionTargets, pushE]
    | some t =>
      by_cases hl : o.label.isEmpty <;>
        simp [validateOptions, ho, hl, ih, addRef_refs, optionTargets, pushE, or_assoc]

theorem validateStep_refs (story : Story) (nodeId : String) (i : Nat) (x : String)
    (st : Step) (acc : VAcc) :
    x ∈ ((validateStep story nodeId i st acc).1).2 ↔ x ∈ acc.2 ∨ x ∈ stepTargets st := by
  cases st with
  | background id =>
    simp only [validateStep, stepTargets]
    split_ifs <;> simp [pushE]
  | show_character id pose pos =>
    simp only [validateStep, stepTargets]
    repeat' split
    all_goals simp [pushE, pushW]
  | hide_character id =>
    simp only [validateStep, stepTargets]
    split_ifs <;> simp [pushE]
  | dialogue who text =>
    simp only [validateStep, stepTargets]
    split_ifs <;> simp [pushE]
  | narration text =>
    simp only [validateStep, stepTargets]
    split_ifs <;> simp [pushE]
  | set_variable key v =>
    simp only [validateStep, stepTargets]
    split_ifs <;> simp [pushE]
  | jump_to n =>
    by_cases hn : n.isEmpty <;> simp [validateStep, stepTargets, hn, pushE, addRef_refs]
  | conditional_jump test thenN elseN =>
    cases hthen : jsTruthy thenN with
    | none =>
      cases helse : jsTruthy elseN with
      | none => simp [validateStep, stepTargets, hthen, helse, pushE]
      | some e => simp [validateStep, stepTargets, hthen, helse, pushE, addRef_refs]
    | some t =>
      cases helse : jsTruthy elseN with
      | none => simp [validateStep, stepTargets, hthen, helse, addRef_refs]
      | some e => simp [validateStep, stepTargets, hthen, helse, addRef_refs, or_assoc]
  | choice prompt options =>
    by_cases he : options.isEmpty
    · rw [List.isEmpty_iff.mp he]
      by_cases hp : (jsTruthy prompt).isNone <;>
        simp [validateStep, stepTargets, hp, pushE, pushW, optionTargets, validateOptions]
    · by_cases hp : (jsTruthy prompt).isNone <;>
        simp [validateStep, stepTargets, he, hp, pushE, pushW, validateOptions_refs]
  | end_story => simp [validateStep, stepTargets]

theorem validateStepsGo_refs (story : Story) (nodeId x : String) :
    ∀ (steps : List Step) (i : Nat) (acc : VAcc) (he : Bool),
      (x ∈ (validateStepsGo story nodeId i steps acc he).2 ↔
        x ∈ acc.2 ∨ x ∈ stepsTargets steps) := by
  intro steps
  induction steps with
  | nil =>
    intro i acc he
    cases he <;> simp [validateStepsGo, stepsTargets, pushW]
  | cons st rest ih =>
    intro i acc he
    simp [validateStepsGo, ih, validateStep_refs, stepsTargets, or_assoc]

theorem validateSteps_refs (story : Story) (nodeId x : String) (steps : List Step)
    (acc : VAcc) :
    x ∈ (validateSteps story steps nodeId acc).2 ↔ x ∈ acc.2 ∨ x ∈ stepsTargets steps := by
  by_cases he : steps.isEmpty
  · rw [List.isEmpty_iff.mp he]
    simp [validateSteps, stepsTargets, pushW]
  · simp [validateSteps, he, validateStepsGo_refs]

mutual

theorem validateNodesT_refs (story : Story) (x : String) :
    ∀ (t : NodeTree) (fullId : String) (acc : VAcc),
      (x ∈ (validateNodesT story t fullId acc).2 ↔ x ∈ acc.2 ∨ x ∈ treeTargetsT t)
  | .leaf steps, fullId, acc => by
    simp [validateNodesT, treeTargetsT, validateSteps_refs]
  | .group cs, fullId, acc => by
    simp only [validateNodesT, treeTargetsT]
    exact validateNodesL_refs story x cs fullId acc

theorem validateNodesL_refs (story : Story) (x : String) :
    ∀ (cs : List (String × NodeTree)) (pre : String) (acc : VAcc),
      (x ∈ (validateNodesL story cs pre acc).2 ↔ x ∈ acc.2 ∨ x ∈ treeTargetsL cs)
  | [], pre, acc => by simp [validateNodesL, treeTargetsL]
  | (key, t) :: rest, pre, acc => by
    have h1 := validateNodesT_refs story x t (mkId pre key) acc
    have h2 := validateNodesL_refs story x rest pre (validateNodesT story t (mkId pre key) acc)
    simp only [validateNodesL, treeTargetsL, List.mem_append]
    rw [h2, h1]
    tauto

end

/-- C6: the validator's referenced set holds exactly the truthy `jump_to` /
`conditional_jump` / choice targets occurring in the node tree; every such
referenced path that is not a defined leaf path produces the
error-severity "Referenced node does not exist" diagnostic in
`validateStory`'s output, and every defined leaf path that is neither the
start node nor referenced produces the warning-severity "defined but never
referenced" diagnostic. -/
theorem validator_dangling_and_unreachable (story : Story) (nodeId : String) :
    (nodeId ∈ referencedNodeIds story ↔ nodeId ∈ treeTargetsL story.nodes) ∧
    (nodeId ∈ referencedNodeIds story → nodeId ∉ allNodeIds story →
      danglingDiag nodeId ∈ validateStory story) ∧
    (nodeId ∈ allNodeIds story → nodeId ≠ story.start →
      nodeId ∉ referencedNodeIds story →
      unreachableDiag nodeId ∈ validateStory story) := by
  refine ⟨?_, ?_, ?_⟩
  · have h := validateNodesL_refs story nodeId story.nodes "" ([], [])
    simpa [referencedNodeIds] using h
  · intro href hnall
    have hfilter : nodeId ∈ (referencedNodeIds story).filter
        (fun id => !(allNodeIds story).contains id) := by
      refine List.mem_filter.mpr ⟨href, ?_⟩
      simp [hnall]
    have hmap := List.mem_map_of_mem danglingDiag hfilter
    unfold validateStory
    dsimp only
    exact List.mem_append.mpr (Or.inl (List.mem_append.mpr (Or.inr hmap)))
  · intro hall hne hnref
    have hfilter : nodeId ∈ (allNodeIds story).filter
        (fun id => id != story.start && !(referencedNodeIds story).contains id) := by
      refine List.mem_filter.mpr ⟨hall, ?_⟩
      simp [bne_iff_ne, hne, hnref]
    have hmap := List.mem_map_of_mem unreachableDiag hfilter
    unfold validateStory
    dsimp only
    exact List.mem_append.mpr (Or.inr hmap)

/-- C6 (witness): in `c6Story` the dangling target `"Nowhere"` produces the
error diagnostic and the unreferenced node `"Orphan"` the warning. -/
theorem validator_dangling_and_unreachable_witness :
    ("Nowhere" ∈ referencedNodeIds c6Story) ∧
    ("Nowhere" ∉ allNodeIds c6Story) ∧
    danglingDiag "Nowhere" ∈ validateStory c6Story ∧
    ("Orphan" ∈ allNodeIds c6Story) ∧
    ("Orphan" ≠ c6Story.start) ∧
    ("Orphan" ∉ referencedNodeIds c6Story) ∧
    unreachableDiag "Orphan" ∈ validateStory c6Story :=
  ⟨by decide, by decide,
   (validator_dangling_and_unreachable c6Story "Nowhere").2.1 (by decide) (by decide),
   by decide, by decide, by decide,
   (validator_dangling_and_unreachable c6Story "Orphan").2.2 (by decide) (by decide)
     (by decide)⟩

end VN
